import Mathlib

/-!
Verification of the natural-language specification of
`tools/c7n_azure/c7n_azure/resources/app_gateway.py` (cloud-custodian),
in particular of the `ApplicationGatewayWafFilter` class: its `schema`
declaration and its `process` method.

The embedding is shallow.  Python dictionaries whose relevant keys may be
absent become structures with `Option` fields; Python exceptions become an
explicit error type `PyErr` and fallible computations return
`Except PyErr _`.  The nested `for` loops of `process`, which append the
current resource to `result` once for every rule that satisfies the filter
condition, are embedded as match-counting functions (all appends for one
resource are consecutive, so they amount to `List.replicate count resource`).
-/

namespace AppGatewayWaf

/-! ## Data model

Shapes of the serialized objects that `process` traverses, read off the
access paths in the source.  Every key whose absence is observable at some
access site is an `Option` field. -/

/-- One entry of a `rules` list inside a rule-group override, as produced by
`serialize(True)`: the source reads `rule.get(ruleId)` (a decimal string)
and `rule.get(state)`. -/
structure WafRule where
  ruleId : Option String
  state : Option String
deriving DecidableEq, Repr

/-- One entry of `ruleGroupOverrides`: the source reads `group.get(rules)`. -/
structure RuleGroupOverride where
  rules : Option (List WafRule)
deriving DecidableEq, Repr

/-- One entry of `managedRuleSets`: the source reads
`rule_set.get(ruleGroupOverrides)`. -/
structure ManagedRuleSet where
  ruleGroupOverrides : Option (List RuleGroupOverride)
deriving DecidableEq, Repr

/-- The `managedRules` dictionary: the source reads
`.get(managedRuleSets)`. -/
structure ManagedRules where
  managedRuleSets : Option (List ManagedRuleSet)
deriving DecidableEq, Repr

/-- The `properties` dictionary of a serialized firewall policy: the source
reads `.get(managedRules)`. -/
structure PolicyProperties where
  managedRules : Option ManagedRules
deriving DecidableEq, Repr

/-- One element of `client.web_application_firewall_policies.list_all()`:
an SDK object exposing the attribute `.id` and the method
`serialize(True)`, whose result is read with `.get(properties, default {})`
(so a missing `properties` key falls back to the empty dictionary, i.e.
`⟨none⟩`). -/
structure WafPolicy where
  id : String
  serializedProperties : Option PolicyProperties
deriving DecidableEq, Repr

/-- The value of the `properties[firewallPolicy]` key of a resource: the source
reads `[id]` on it (a `KeyError` when absent). -/
structure FirewallPolicyRef where
  id : Option String
deriving DecidableEq, Repr

/-- The value of the `properties` key of a resource: the source tests
`firewallPolicy not in resource[properties]`. -/
structure ResourceProperties where
  firewallPolicy : Option FirewallPolicyRef
deriving DecidableEq, Repr

/-- One element of the `resources` argument of `process`: a serialized
application gateway.  The only key the source reads is `properties`
(`resource[properties]`, a `KeyError` when absent); `name` stands for the
rest of the serialized object and gives distinct resources an identity. -/
structure Resource where
  name : String
  properties : Option ResourceProperties
deriving DecidableEq, Repr

/-- The validated filter data: `self.data.get(override_rule)` (a JSON
number) and `self.data.get(state)` (a JSON string).  The declared schema
makes both keys required, so they are embedded as plain fields. -/
structure WafFilterData where
  override_rule : Int
  state : String
deriving DecidableEq, Repr

/-- The Python exceptions that the body of `process` can raise:
`KeyError` from `d[k]` on a missing key, `AttributeError` from calling a
method (`.get`, `.lower`) on `None`, `TypeError` from iterating `None` or
calling `int(None)`, `ValueError` from `int()` on a non-numeric string. -/
inductive PyErr where
  | keyError (key : String)
  | attrError
  | typeError
  | valueError
deriving DecidableEq, Repr

/-! ## String primitives

Embeddings of the two Python string operations the filter condition uses:
`str.lower()` and `int(str)` (ASCII case folding and decimal parsing). -/

/-- The Python method `str.lower()` restricted to ASCII case folding, applied
characterwise. -/
def pyLower (s : String) : String :=
  ⟨s.data.map Char.toLower⟩

/-- Accumulate the value of a decimal digit string; `none` as soon as a
non-digit character occurs. -/
def digitsToNat : List Char → Nat → Option Nat
  | [], acc => some acc
  | c :: cs, acc =>
    if 48 ≤ c.toNat ∧ c.toNat ≤ 57 then digitsToNat cs (acc * 10 + (c.toNat - 48))
    else none

/-- The Python conversion `int(s)` on a string: an optional sign followed by at least one
decimal digit; anything else raises `ValueError`. -/
def pyInt (s : String) : Except PyErr Int :=
  match s.data with
  | [] => .error .valueError
  | '-' :: cs =>
    match cs, digitsToNat cs 0 with
    | _ :: _, some n => .ok (-(n : Int))
    | _, _ => .error .valueError
  | '+' :: cs =>
    match cs, digitsToNat cs 0 with
    | _ :: _, some n => .ok (n : Int)
    | _, _ => .error .valueError
  | cs =>
    match digitsToNat cs 0 with
    | some n => .ok (n : Int)
    | none => .error .valueError

/-! ## The filter condition (source lines 91-92) -/

/-- The state comparison of line 92:
`filter_state.lower() == rule.get(state).lower()`. -/
def stateEq (filterState ruleState : String) : Bool :=
  pyLower filterState == pyLower ruleState

/-- The condition of lines 91-92,
`filter_override_rule == int(rule.get(ruleId)) and
 filter_state.lower() == rule.get(state).lower()`,
with the Python evaluation order: `int(rule.get(ruleId))` is evaluated
first (`TypeError` on a missing `ruleId`, `ValueError` on a non-numeric
one); the right operand of `and` is evaluated only when the left operand is
true, so `rule.get(state).lower()` (an `AttributeError` on a missing
`state`) is only reached when the rule id matches. -/
def ruleCheck (d : WafFilterData) (rule : WafRule) : Except PyErr Bool :=
  match rule.ruleId with
  | none => .error .typeError
  | some ridStr =>
    match pyInt ridStr with
    | .error e => .error e
    | .ok rid =>
      if d.override_rule = rid then
        match rule.state with
        | none => .error .attrError
        | some t => .ok (stateEq d.state t)
      else
        .ok false

/-! ## The nested loops of `process` (lines 88-93)

Each loop level is embedded as a function counting how many times
`result.append(resource)` executes below it; a raised exception propagates
as `Except.error`. -/

/-- The innermost loop `for rule in group.get(rules)`: number of rules
satisfying the filter condition, left to right, first raised error wins. -/
def rulesMatchCount (d : WafFilterData) : List WafRule → Except PyErr Nat
  | [] => .ok 0
  | r :: rs =>
    match ruleCheck d r with
    | .error e => .error e
    | .ok b =>
      match rulesMatchCount d rs with
      | .error e => .error e
      | .ok n => .ok ((if b then 1 else 0) + n)

/-- The loop header `for rule in group.get(rules)`: a missing `rules` key makes the `get`
return `None`, and iterating `None` raises `TypeError`. -/
def groupMatchCount (d : WafFilterData) (g : RuleGroupOverride) : Except PyErr Nat :=
  match g.rules with
  | none => .error .typeError
  | some rs => rulesMatchCount d rs

/-- The loop `for group in rule_set.get(ruleGroupOverrides)` over the
groups of one rule set. -/
def groupsMatchCount (d : WafFilterData) : List RuleGroupOverride → Except PyErr Nat
  | [] => .ok 0
  | g :: gs =>
    match groupMatchCount d g with
    | .error e => .error e
    | .ok n =>
      match groupsMatchCount d gs with
      | .error e => .error e
      | .ok m => .ok (n + m)

/-- The loop header `for group in rule_set.get(ruleGroupOverrides)`: a missing
`ruleGroupOverrides` key yields `None`, iterated as a `TypeError`. -/
def ruleSetMatchCount (d : WafFilterData) (s : ManagedRuleSet) : Except PyErr Nat :=
  match s.ruleGroupOverrides with
  | none => .error .typeError
  | some gs => groupsMatchCount d gs

/-- The loop `for rule_set in ...get(managedRuleSets)` over the rule sets
of one policy. -/
def ruleSetsMatchCount (d : WafFilterData) : List ManagedRuleSet → Except PyErr Nat
  | [] => .ok 0
  | s :: ss =>
    match ruleSetMatchCount d s with
    | .error e => .error e
    | .ok n =>
      match ruleSetsMatchCount d ss with
      | .error e => .error e
      | .ok m => .ok (n + m)

/-- Lines 87-93 for one policy whose id matched:
`app_gate_waf.serialize(True).get(properties, default {})` (missing `properties`
falls back to `{}`), then `.get(managedRules)` (`None.get` raises
`AttributeError` when absent), then `.get(managedRuleSets)` (iterating
`None` raises `TypeError` when absent), then the nested loops. -/
def policyMatchCount (d : WafFilterData) (p : WafPolicy) : Except PyErr Nat :=
  match (p.serializedProperties.getD ⟨none⟩).managedRules with
  | none => .error .attrError
  | some mr =>
    match mr.managedRuleSets with
    | none => .error .typeError
    | some sets => ruleSetsMatchCount d sets

/-- The loop `for app_gate_waf in app_gate_wafs` (lines 83-93): policies
whose `.id` differs from the referenced policy id of the resource are skipped
(`continue`); every policy with a matching id is scanned — there is no
`break` after a match. -/
def policiesMatchCount (d : WafFilterData) (pid : String) :
    List WafPolicy → Except PyErr Nat
  | [] => .ok 0
  | p :: ps =>
    if p.id ≠ pid then policiesMatchCount d pid ps
    else
      match policyMatchCount d p with
      | .error e => .error e
      | .ok n =>
        match policiesMatchCount d pid ps with
        | .error e => .error e
        | .ok m => .ok (n + m)

/-- The body of `for resource in resources` (lines 78-93) for one resource:
`resource[properties]` (`KeyError` when absent), the
`firewallPolicy not in ...` guard (`continue`, i.e. no appends), then
`resource[properties][firewallPolicy][id]` (`KeyError` when absent);
the appends that the nested loops perform for this resource are the
consecutive block `List.replicate count resource`. -/
def processResource (d : WafFilterData) (policies : List WafPolicy)
    (r : Resource) : Except PyErr (List Resource) :=
  match r.properties with
  | none => .error (.keyError "properties")
  | some props =>
    match props.firewallPolicy with
    | none => .ok []
    | some ref =>
      match ref.id with
      | none => .error (.keyError "id")
      | some pid =>
        match policiesMatchCount d pid policies with
        | .error e => .error e
        | .ok n => .ok (List.replicate n r)

/-- The method `ApplicationGatewayWafFilter.process` after the policy list has been
fetched: the loop over `resources` appending into `result`; a raised
exception anywhere discards the whole run. -/
def process (d : WafFilterData) (policies : List WafPolicy) :
    List Resource → Except PyErr (List Resource)
  | [] => .ok []
  | r :: rs =>
    match processResource d policies r with
    | .error e => .error e
    | .ok l1 =>
      match process d policies rs with
      | .error e => .error e
      | .ok l2 => .ok (l1 ++ l2)

/-! ## The collaborator call (lines 74-75)

`client.web_application_firewall_policies.list_all()` is called once,
before the resource loop, and its materialized result is reused for every
resource.  The client is embedded with an explicit call counter so the
number of invocations is observable. -/

/-- The network client: `web_application_firewall_policies.list_all()`
returns this fixed policy list. -/
structure NetworkClient where
  webApplicationFirewallPolicies : List WafPolicy
deriving DecidableEq, Repr

/-- The call `list(client.web_application_firewall_policies.list_all())`,
instrumented: returns the materialized list and bumps the call counter. -/
def listAllCounted (c : NetworkClient) (calls : Nat) : List WafPolicy × Nat :=
  (c.webApplicationFirewallPolicies, calls + 1)

/-- Function `process` including line 75: fetch the policy list once (counted), then
run the resource loop on the fetched list.  The second component is the
total number of `list_all` invocations performed by the run. -/
def processWithClient (d : WafFilterData) (c : NetworkClient)
    (resources : List Resource) : Except PyErr (List Resource) × Nat :=
  let fetched := listAllCounted c 0
  (process d fetched.1 resources, fetched.2)

/-! ## Match predicates

Declarative counterparts of the filter condition, used to state the
specification claims: a rule matches when its `ruleId` parses to the
`override_rule` of the filter and its `state` equals the filter `state` up to
ASCII case. -/

/-- The filter condition as a predicate on one rule. -/
def ruleMatches (d : WafFilterData) (rule : WafRule) : Prop :=
  ∃ s, rule.ruleId = some s ∧ pyInt s = .ok d.override_rule ∧
    ∃ t, rule.state = some t ∧ stateEq d.state t = true

/-- Some rule of the group satisfies the filter condition. -/
def groupHasMatch (d : WafFilterData) (g : RuleGroupOverride) : Prop :=
  ∃ rs, g.rules = some rs ∧ ∃ r ∈ rs, ruleMatches d r

/-- Some rule of some group of the rule set satisfies the filter
condition. -/
def ruleSetHasMatch (d : WafFilterData) (s : ManagedRuleSet) : Prop :=
  ∃ gs, s.ruleGroupOverrides = some gs ∧ ∃ g ∈ gs, groupHasMatch d g

/-- Somewhere in the managedRuleSets → ruleGroupOverrides → rules nesting
of the policy there is a rule satisfying the filter condition. -/
def policyHasMatchingRule (d : WafFilterData) (p : WafPolicy) : Prop :=
  ∃ mr, (p.serializedProperties.getD ⟨none⟩).managedRules = some mr ∧
    ∃ sets, mr.managedRuleSets = some sets ∧
      ∃ s ∈ sets, ruleSetHasMatch d s

/-- The successful result of a fallible computation, the empty list when it
raised (used only to state the decomposition of a successful run). -/
def okList (e : Except PyErr (List Resource)) : List Resource :=
  match e with
  | .ok l => l
  | .error _ => []

/-! ## Concrete fixtures

The end-to-end scenario of the spec (resources A, B, C) and the inputs
exhibiting duplicate appends and raised exceptions. -/

/-- The filter data of the docstring example:
override_rule 944240, state disabled. -/
def exampleData : WafFilterData := ⟨944240, "disabled"⟩

/-- A fetched policy with a single rule set, a single group, and the given
rules. -/
def mkPolicy (pid : String) (rules : List WafRule) : WafPolicy :=
  ⟨pid, some ⟨some ⟨some [⟨some [⟨some rules⟩]⟩]⟩⟩⟩

/-- A rule with id 944240 and state disabled. -/
def ruleDisabled : WafRule := ⟨some "944240", some "disabled"⟩

/-- A rule with id 944240 and state disabled spelled with a capital D. -/
def ruleDisabledCap : WafRule := ⟨some "944240", some "Disabled"⟩

/-- A rule with id 944240 and state enabled. -/
def ruleEnabled : WafRule := ⟨some "944240", some "enabled"⟩

/-- Resource A: has `properties` but no firewallPolicy reference. -/
def resourceA : Resource := ⟨"A", some ⟨none⟩⟩

/-- Resource B: references the policy with id pb. -/
def resourceB : Resource := ⟨"B", some ⟨some ⟨some "pb"⟩⟩⟩

/-- Resource C: references the policy with id pc. -/
def resourceC : Resource := ⟨"C", some ⟨some ⟨some "pc"⟩⟩⟩

/-- The policy referenced by B: override rule 944240 disabled. -/
def policyB : WafPolicy := mkPolicy "pb" [ruleDisabled]

/-- The policy referenced by C: override rule 944240 enabled. -/
def policyC : WafPolicy := mkPolicy "pc" [ruleEnabled]

/-- A policy for B containing two rules that both satisfy the filter. -/
def policyTwoMatches : WafPolicy := mkPolicy "pb" [ruleDisabled, ruleDisabledCap]

/-- A resource named `name` whose properties reference policy `pid`. -/
def refResource (name pid : String) : Resource := ⟨name, some ⟨some ⟨some pid⟩⟩⟩

/-- A policy whose serialized properties lack managedRules. -/
def policyNoManagedRules (pid : String) : WafPolicy := ⟨pid, some ⟨none⟩⟩

/-- A policy whose managedRules lack managedRuleSets. -/
def policyNoRuleSets (pid : String) : WafPolicy := ⟨pid, some ⟨some ⟨none⟩⟩⟩

/-- A policy with one rule set lacking ruleGroupOverrides. -/
def policyNoOverrides (pid : String) : WafPolicy := ⟨pid, some ⟨some ⟨some [⟨none⟩]⟩⟩⟩

/-- A policy with one group lacking rules. -/
def policyNoRules (pid : String) : WafPolicy := ⟨pid, some ⟨some ⟨some [⟨some [⟨none⟩]⟩]⟩⟩⟩

/-- A policy with one rule lacking ruleId. -/
def policyNoRuleId (pid : String) : WafPolicy := mkPolicy pid [⟨none, some "disabled"⟩]

/-- A policy with one rule whose ruleId is `s` but which lacks state. -/
def policyNoState (pid s : String) : WafPolicy := mkPolicy pid [⟨some s, none⟩]

/-! ## Case variants (for the case-insensitivity claim)

A case variant of a string changes each character to itself, its lowercase
form, or its uppercase form. -/

/-- Whether `c2` is `c` with its case possibly changed. -/
def caseVariantChar (c c2 : Char) : Bool :=
  c2 == c || c2 == c.toLower || c2 == c.toUpper

/-- Characterwise case variation of character lists. -/
def caseVariantChars : List Char → List Char → Bool
  | [], [] => true
  | c :: cs, c2 :: cs2 => caseVariantChar c c2 && caseVariantChars cs cs2
  | _, _ => false

/-- Whether `s2` is `s` with the case of its characters possibly changed. -/
def caseVariant (s s2 : String) : Bool :=
  caseVariantChars s.data s2.data

/-! ## The declared schema (source lines 61-67) and the runner

The `schema` attribute is built by the host framework helper
`c7n.utils.type_schema` and enforced by the jsonschema validation of the host;
neither is part of the provided source, so the validation semantics below
is modelled from the spec. -/

/-- A JSON scalar value of a filter configuration record. -/
inductive JsonValue where
  | num (n : Int)
  | str (s : String)
  | boolean (b : Bool)
  | null
deriving DecidableEq, Repr

/-- A filter configuration record: a mapping from keys to values (a Python
dict, so its keys are unique). -/
abbrev FilterSpec := List (String × JsonValue)

/-- Modelled from the spec: the per-key constraints the waf schema uses —
a number type, or a string restricted to an enumerated set (source lines
65-66). -/
inductive PropConstraint where
  | jsonNumber
  | strEnum (allowed : List String)
deriving DecidableEq, Repr

/-- Modelled from the spec: a declared filter schema — required keys plus
per-key constraints. -/
structure FilterSchema where
  required : List String
  props : List (String × PropConstraint)
deriving DecidableEq, Repr

/-- Modelled from the spec: whether one value satisfies one constraint. -/
def checkConstraint : PropConstraint → JsonValue → Bool
  | .jsonNumber, .num _ => true
  | .strEnum vs, .str s => vs.contains s
  | _, _ => false

/-- Modelled from the spec: schema validation of a filter record — every
required key is present and every present key with a declared constraint
satisfies it ("Validation rejects a filter spec missing override_rule or
with state outside the singleton set disabled"). -/
def validateSpec (sch : FilterSchema) (spec : FilterSpec) : Bool :=
  sch.required.all (fun k => (spec.lookup k).isSome) &&
  spec.all (fun kv =>
    match sch.props.lookup kv.1 with
    | some pc => checkConstraint pc kv.2
    | none => true)

/-- The waf filter schema of source lines 61-67: `override_rule` of number
type and `state` a string restricted to disabled, both required. -/
def wafSchema : FilterSchema :=
  ⟨["override_rule", "state"],
    [("override_rule", .jsonNumber), ("state", .strEnum ["disabled"])]⟩

/-- Validation failure, fatal before execution. -/
inductive RunError where
  | validationError
deriving DecidableEq, Repr

/-- The resource enumeration collaborator: lists the resources of the
managed type. -/
structure Enumerator where
  resources : List Resource
deriving DecidableEq, Repr

/-- Modelled from the spec: one enumeration call (spec section 4.3),
instrumented with a call counter. -/
def enumerateCounted (e : Enumerator) (calls : Nat) : List Resource × Nat :=
  (e.resources, calls + 1)

/-- The override_rule parameter of a validated spec. -/
def specOverrideRule (spec : FilterSpec) : Int :=
  match spec.lookup "override_rule" with
  | some (.num n) => n
  | _ => 0

/-- The state parameter of a validated spec. -/
def specState (spec : FilterSpec) : String :=
  match spec.lookup "state" with
  | some (.str s) => s
  | _ => ""

/-- Modelled from the spec: the Policy Runner (spec section 4.4) validates
the filter record against its declared schema before any enumeration
happens (fail fast); on success it enumerates once and runs the waf
filter.  The second component counts enumeration calls. -/
def runWaf (spec : FilterSpec) (e : Enumerator) (c : NetworkClient) :
    Except RunError (Except PyErr (List Resource)) × Nat :=
  if validateSpec wafSchema spec then
    let fetched := enumerateCounted e 0
    (.ok (process ⟨specOverrideRule spec, specState spec⟩
      c.webApplicationFirewallPolicies fetched.1), fetched.2)
  else
    (.error .validationError, 0)

/-- A well-formed filter record for the docstring example. -/
def specGood : FilterSpec :=
  [("override_rule", .num 944240), ("state", .str "disabled")]

/-- A filter record missing override_rule and with a state outside the
allowed set. -/
def specBad : FilterSpec := [("state", .str "enabled")]

/-! ## Lemmas: the counters are positive exactly on a match -/

lemma ruleCheck_ok_true_iff (d : WafFilterData) (rule : WafRule) :
    ruleCheck d rule = .ok true ↔ ruleMatches d rule := by
  obtain ⟨rid?, st?⟩ := rule
  cases rid? with
  | none => simp [ruleCheck, ruleMatches]
  | some s =>
    cases hint : pyInt s with
    | error e => simp [ruleCheck, ruleMatches, hint]
    | ok rid =>
      by_cases hov : d.override_rule = rid
      · cases st? with
        | none => simp [ruleCheck, ruleMatches, hint, hov]
        | some t => simp [ruleCheck, ruleMatches, hint, hov]
      · cases st? with
        | none => simp [ruleCheck, ruleMatches, hint, hov, Ne.symm hov]
        | some t => simp [ruleCheck, ruleMatches, hint, hov, Ne.symm hov]

lemma ruleCheck_ok_iff (d : WafFilterData) (rule : WafRule) (b : Bool)
    (h : ruleCheck d rule = .ok b) : b = true ↔ ruleMatches d rule := by
  constructor
  · intro hb; exact (ruleCheck_ok_true_iff d rule).mp (hb ▸ h)
  · intro hm
    have h2 := (ruleCheck_ok_true_iff d rule).mpr hm
    rw [h] at h2
    injection h2

lemma rulesMatchCount_pos (d : WafFilterData) (rs : List WafRule) :
    ∀ n : Nat, rulesMatchCount d rs = .ok n →
      (0 < n ↔ ∃ r ∈ rs, ruleMatches d r) := by
  induction rs with
  | nil =>
    intro n h
    injection h with h
    simp [← h]
  | cons r rs ih =>
    intro n h
    unfold rulesMatchCount at h
    cases hc : ruleCheck d r with
    | error e => rw [hc] at h; exact absurd h (by simp)
    | ok b =>
      rw [hc] at h
      cases hrec : rulesMatchCount d rs with
      | error e => rw [hrec] at h; exact absurd h (by simp)
      | ok m =>
        rw [hrec] at h
        injection h with h
        have hsplit : 0 < n ↔ (b = true ∨ 0 < m) := by
          cases b <;> simp [← h]
        rw [hsplit, ruleCheck_ok_iff d r b hc, ih m hrec]
        constructor
        · rintro (hm | ⟨r', hr', hm⟩)
          · exact ⟨r, List.mem_cons_self r rs, hm⟩
          · exact ⟨r', List.mem_cons_of_mem r hr', hm⟩
        · rintro ⟨r', hr', hm⟩
          rcases List.mem_cons.mp hr' with rfl | hr'
          · exact Or.inl hm
          · exact Or.inr ⟨r', hr', hm⟩

lemma groupMatchCount_pos (d : WafFilterData) (g : RuleGroupOverride)
    (n : Nat) (h : groupMatchCount d g = .ok n) :
    0 < n ↔ groupHasMatch d g := by
  unfold groupMatchCount at h
  cases hg : g.rules with
  | none => rw [hg] at h; exact absurd h (by simp)
  | some rs =>
    rw [hg] at h
    rw [rulesMatchCount_pos d rs n h]
    constructor
    · rintro ⟨r, hr, hm⟩; exact ⟨rs, hg, r, hr, hm⟩
    · rintro ⟨rs', hrs', r, hr, hm⟩
      rw [hg] at hrs'
      injection hrs' with hrs'
      exact ⟨r, hrs' ▸ hr, hm⟩

lemma groupsMatchCount_pos (d : WafFilterData) (gs : List RuleGroupOverride) :
    ∀ n : Nat, groupsMatchCount d gs = .ok n →
      (0 < n ↔ ∃ g ∈ gs, groupHasMatch d g) := by
  induction gs with
  | nil =>
    intro n h
    injection h with h
    simp [← h]
  | cons g gs ih =>
    intro n h
    unfold groupsMatchCount at h
    cases hc : groupMatchCount d g with
    | error e => rw [hc] at h; exact absurd h (by simp)
    | ok a =>
      rw [hc] at h
      cases hrec : groupsMatchCount d gs with
      | error e => rw [hrec] at h; exact absurd h (by simp)
      | ok m =>
        rw [hrec] at h
        injection h with h
        have hsplit : 0 < n ↔ (0 < a ∨ 0 < m) := by omega
        rw [hsplit, groupMatchCount_pos d g a hc, ih m hrec]
        constructor
        · rintro (hm | ⟨g', hg', hm⟩)
          · exact ⟨g, List.mem_cons_self g gs, hm⟩
          · exact ⟨g', List.mem_cons_of_mem g hg', hm⟩
        · rintro ⟨g', hg', hm⟩
          rcases List.mem_cons.mp hg' with rfl | hg'
          · exact Or.inl hm
          · exact Or.inr ⟨g', hg', hm⟩

lemma ruleSetMatchCount_pos (d : WafFilterData) (s : ManagedRuleSet)
    (n : Nat) (h : ruleSetMatchCount d s = .ok n) :
    0 < n ↔ ruleSetHasMatch d s := by
  unfold ruleSetMatchCount at h
  cases hs : s.ruleGroupOverrides with
  | none => rw [hs] at h; exact absurd h (by simp)
  | some gs =>
    rw [hs] at h
    rw [groupsMatchCount_pos d gs n h]
    constructor
    · rintro ⟨g, hg, hm⟩; exact ⟨gs, hs, g, hg, hm⟩
    · rintro ⟨gs', hgs', g, hg, hm⟩
      rw [hs] at hgs'
      injection hgs' with hgs'
      exact ⟨g, hgs' ▸ hg, hm⟩

lemma ruleSetsMatchCount_pos (d : WafFilterData) (ss : List ManagedRuleSet) :
    ∀ n : Nat, ruleSetsMatchCount d ss = .ok n →
      (0 < n ↔ ∃ s ∈ ss, ruleSetHasMatch d s) := by
  induction ss with
  | nil =>
    intro n h
    injection h with h
    simp [← h]
  | cons s ss ih =>
    intro n h
    unfold ruleSetsMatchCount at h
    cases hc : ruleSetMatchCount d s with
    | error e => rw [hc] at h; exact absurd h (by simp)
    | ok a =>
      rw [hc] at h
      cases hrec : ruleSetsMatchCount d ss with
      | error e => rw [hrec] at h; exact absurd h (by simp)
      | ok m =>
        rw [hrec] at h
        injection h with h
        have hsplit : 0 < n ↔ (0 < a ∨ 0 < m) := by omega
        rw [hsplit, ruleSetMatchCount_pos d s a hc, ih m hrec]
        constructor
        · rintro (hm | ⟨s', hs', hm⟩)
          · exact ⟨s, List.mem_cons_self s ss, hm⟩
          · exact ⟨s', List.mem_cons_of_mem s hs', hm⟩
        · rintro ⟨s', hs', hm⟩
          rcases List.mem_cons.mp hs' with rfl | hs'
          · exact Or.inl hm
          · exact Or.inr ⟨s', hs', hm⟩

lemma policyMatchCount_pos (d : WafFilterData) (p : WafPolicy)
    (n : Nat) (h : policyMatchCount d p = .ok n) :
    0 < n ↔ policyHasMatchingRule d p := by
  unfold policyMatchCount at h
  cases hmr : (p.serializedProperties.getD ⟨none⟩).managedRules with
  | none => simp [hmr] at h
  | some mr =>
    simp only [hmr] at h
    cases hsets : mr.managedRuleSets with
    | none => simp [hsets] at h
    | some sets =>
      simp only [hsets] at h
      rw [ruleSetsMatchCount_pos d sets n h]
      constructor
      · rintro ⟨s, hs, hm⟩; exact ⟨mr, hmr, sets, hsets, s, hs, hm⟩
      · rintro ⟨mr', hmr', sets', hsets', s, hs, hm⟩
        rw [hmr] at hmr'
        injection hmr' with hmr'
        rw [← hmr', hsets] at hsets'
        injection hsets' with hsets'
        exact ⟨s, hsets' ▸ hs, hm⟩

lemma policiesMatchCount_pos (d : WafFilterData) (pid : String)
    (ps : List WafPolicy) :
    ∀ n : Nat, policiesMatchCount d pid ps = .ok n →
      (0 < n ↔ ∃ p ∈ ps, p.id = pid ∧ policyHasMatchingRule d p) := by
  induction ps with
  | nil =>
    intro n h
    injection h with h
    simp [← h]
  | cons p ps ih =>
    intro n h
    unfold policiesMatchCount at h
    by_cases hpd : p.id = pid
    · rw [if_neg (by simp [hpd])] at h
      cases hc : policyMatchCount d p with
      | error e => rw [hc] at h; exact absurd h (by simp)
      | ok a =>
        rw [hc] at h
        cases hrec : policiesMatchCount d pid ps with
        | error e => rw [hrec] at h; exact absurd h (by simp)
        | ok m =>
          rw [hrec] at h
          injection h with h
          have hsplit : 0 < n ↔ (0 < a ∨ 0 < m) := by omega
          rw [hsplit, policyMatchCount_pos d p a hc, ih m hrec]
          constructor
          · rintro (hm | ⟨p', hp', hpid', hm⟩)
            · exact ⟨p, List.mem_cons_self p ps, hpd, hm⟩
            · exact ⟨p', List.mem_cons_of_mem p hp', hpid', hm⟩
          · rintro ⟨p', hp', hpid', hm⟩
            rcases List.mem_cons.mp hp' with rfl | hp'
            · exact Or.inl hm
            · exact Or.inr ⟨p', hp', hpid', hm⟩
    · rw [if_pos hpd] at h
      rw [ih n h]
      constructor
      · rintro ⟨p', hp', hpid', hm⟩
        exact ⟨p', List.mem_cons_of_mem p hp', hpid', hm⟩
      · rintro ⟨p', hp', hpid', hm⟩
        rcases List.mem_cons.mp hp' with rfl | hp'
        · exact absurd hpid' hpd
        · exact ⟨p', hp', hpid', hm⟩

/-! ## Lemmas: the structure of a successful `process` run -/

lemma processResource_ok_replicate (d : WafFilterData) (pols : List WafPolicy)
    (r : Resource) (lr : List Resource)
    (h : processResource d pols r = .ok lr) : ∃ n, lr = List.replicate n r := by
  unfold processResource at h
  cases hp : r.properties with
  | none => simp [hp] at h
  | some props =>
    simp only [hp] at h
    cases hf : props.firewallPolicy with
    | none =>
      simp only [hf] at h
      injection h with h
      exact ⟨0, h.symm⟩
    | some ref =>
      simp only [hf] at h
      cases hid : ref.id with
      | none => simp [hid] at h
      | some pid =>
        simp only [hid] at h
        cases hc : policiesMatchCount d pid pols with
        | error e => rw [hc] at h; exact absurd h (by simp)
        | ok n =>
          rw [hc] at h
          injection h with h
          exact ⟨n, h.symm⟩

lemma process_ok_parts (d : WafFilterData) (pols : List WafPolicy) :
    ∀ (rs l : List Resource), process d pols rs = .ok l →
      (∀ r ∈ rs, ∃ lr, processResource d pols r = .ok lr) ∧
      l = rs.flatMap (fun r => okList (processResource d pols r)) := by
  intro rs
  induction rs with
  | nil =>
    intro l h
    injection h with h
    exact ⟨by simp, by simp [← h]⟩
  | cons r rs ih =>
    intro l h
    unfold process at h
    cases hr : processResource d pols r with
    | error e => rw [hr] at h; exact absurd h (by simp)
    | ok l1 =>
      rw [hr] at h
      cases hrec : process d pols rs with
      | error e => rw [hrec] at h; exact absurd h (by simp)
      | ok l2 =>
        rw [hrec] at h
        injection h with h
        obtain ⟨hall, hflat⟩ := ih l2 hrec
        constructor
        · intro r' hr'
          rcases List.mem_cons.mp hr' with rfl | hr'
          · exact ⟨l1, hr⟩
          · exact hall r' hr'
        · rw [← h]
          simp only [List.flatMap_cons, hr, ← hflat]
          rfl

lemma mem_process_iff (d : WafFilterData) (pols : List WafPolicy)
    (rs l : List Resource) (x : Resource) (h : process d pols rs = .ok l) :
    x ∈ l ↔ ∃ r ∈ rs, ∃ lr, processResource d pols r = .ok lr ∧ x ∈ lr := by
  obtain ⟨hall, hflat⟩ := process_ok_parts d pols rs l h
  subst hflat
  rw [List.mem_flatMap]
  constructor
  · rintro ⟨r, hr, hx⟩
    obtain ⟨lr, hlr⟩ := hall r hr
    rw [hlr] at hx
    exact ⟨r, hr, lr, hlr, by simpa [okList] using hx⟩
  · rintro ⟨r, hr, lr, hlr, hx⟩
    refine ⟨r, hr, ?_⟩
    rw [hlr]
    simpa [okList] using hx

/-! ## Claim theorems -/

/-- C1, counterexample: `process` does not return each passing resource
exactly once.  On a policy containing two rules that satisfy the filter,
the resource is appended once per matching rule (lines 91-93 have no
`break`), so it appears twice in the result. -/
theorem C1_counterexample_duplicate :
    process exampleData [policyTwoMatches] [resourceB] = .ok [resourceB, resourceB] ∧
    List.count resourceB [resourceB, resourceB] = 2 :=
  ⟨rfl, by decide⟩

/-- C1 (amended): a successful `process` run returns, in enumeration order,
one consecutive block per input resource, each block being that resource
replicated once per matching (policy, rule) occurrence; so relative order
follows the input enumeration, but a resource whose matching policy
contains several rules satisfying the filter is repeated, not returned
exactly once. -/
theorem C1_process_blocks (d : WafFilterData) (pols : List WafPolicy)
    (rs l : List Resource) (h : process d pols rs = .ok l) :
    l = rs.flatMap (fun r => okList (processResource d pols r)) ∧
    ∀ r ∈ rs, ∃ n, okList (processResource d pols r) = List.replicate n r := by
  obtain ⟨hall, hflat⟩ := process_ok_parts d pols rs l h
  refine ⟨hflat, fun r hr => ?_⟩
  obtain ⟨lr, hlr⟩ := hall r hr
  obtain ⟨n, hn⟩ := processResource_ok_replicate d pols r lr hlr
  refine ⟨n, ?_⟩
  rw [hlr]
  simpa [okList] using hn

/-- Witness for C1 (amended) at the duplicate-append input. -/
theorem C1_process_blocks_witness :
    ([resourceB, resourceB] : List Resource) =
      [resourceB].flatMap
        (fun r => okList (processResource exampleData [policyTwoMatches] r)) ∧
    ∀ r ∈ [resourceB], ∃ n,
      okList (processResource exampleData [policyTwoMatches] r) = List.replicate n r :=
  C1_process_blocks exampleData [policyTwoMatches] [resourceB] [resourceB, resourceB] rfl

/-- C2, counterexample: a traversal gap does not resolve to a quiet
"no match".  A matched policy whose serialized properties lack
managedRules makes line 88 call `.get` on `None`, raising
`AttributeError`, so `process` raises instead of excluding the
resource. -/
theorem C2_counterexample_gap_raises :
    process exampleData [policyNoManagedRules "pb"] [resourceB] = .error .attrError :=
  rfl

/-- C2 (amended): every traversal gap in a policy matched to a resource
makes `process` raise an error rather than treat the pair as not matched:
missing managedRules raises `AttributeError`; missing managedRuleSets,
ruleGroupOverrides, rules, or ruleId raise `TypeError`; a missing state
raises `AttributeError` when the rule id matches the filter (when the id
does not match, the state access is short-circuited away). -/
theorem C2_gaps_raise (d : WafFilterData) (name pid : String) :
    process d [policyNoManagedRules pid] [refResource name pid] = .error .attrError ∧
    process d [policyNoRuleSets pid] [refResource name pid] = .error .typeError ∧
    process d [policyNoOverrides pid] [refResource name pid] = .error .typeError ∧
    process d [policyNoRules pid] [refResource name pid] = .error .typeError ∧
    process d [policyNoRuleId pid] [refResource name pid] = .error .typeError ∧
    ∀ s : String, pyInt s = .ok d.override_rule →
      process d [policyNoState pid s] [refResource name pid] = .error .attrError := by
  refine ⟨?_, ?_, ?_, ?_, ?_, ?_⟩
  · simp [process, processResource, policiesMatchCount, policyMatchCount,
      policyNoManagedRules, refResource]
  · simp [process, processResource, policiesMatchCount, policyMatchCount,
      policyNoRuleSets, refResource]
  · simp [process, processResource, policiesMatchCount, policyMatchCount,
      ruleSetsMatchCount, ruleSetMatchCount, policyNoOverrides, refResource]
  · simp [process, processResource, policiesMatchCount, policyMatchCount,
      ruleSetsMatchCount, ruleSetMatchCount, groupsMatchCount, groupMatchCount,
      policyNoRules, refResource, mkPolicy]
  · simp [process, processResource, policiesMatchCount, policyMatchCount,
      ruleSetsMatchCount, ruleSetMatchCount, groupsMatchCount, groupMatchCount,
      rulesMatchCount, ruleCheck, policyNoRuleId, refResource, mkPolicy]
  · intro s hs
    simp [process, processResource, policiesMatchCount, policyMatchCount,
      ruleSetsMatchCount, ruleSetMatchCount, groupsMatchCount, groupMatchCount,
      rulesMatchCount, ruleCheck, policyNoState, refResource, mkPolicy, hs]

/-- Witness for C2 (amended): the missing-state gap raises at a concrete
input whose rule id matches the filter. -/
theorem C2_gaps_raise_witness :
    process exampleData [policyNoState "pb" "944240"] [refResource "B" "pb"] =
      .error .attrError :=
  (C2_gaps_raise exampleData "B" "pb").2.2.2.2.2 "944240" rfl

/-- C3: on three resources — A without a firewallPolicy reference, B
referencing a fetched policy with override rule 944240 disabled, C
referencing a fetched policy with override rule 944240 enabled — the
filter override_rule 944240 / state disabled returns exactly the
one-element list containing B. -/
theorem C3_end_to_end :
    process exampleData [policyB, policyC] [resourceA, resourceB, resourceC] =
      .ok [resourceB] :=
  rfl

/-- C4: for a resource whose referenced firewall policy is among the
fetched policies, in a successful run the resource is included in the
result if and only if some fetched policy with the referenced id has,
anywhere in its managedRuleSets → ruleGroupOverrides → rules nesting, a
rule whose ruleId parses to override_rule and whose state equals the
filter state case-insensitively. -/
theorem C4_match_iff (d : WafFilterData) (pols : List WafPolicy)
    (rs l : List Resource) (r : Resource) (props : ResourceProperties)
    (ref : FirewallPolicyRef) (pid : String)
    (hok : process d pols rs = .ok l) (hr : r ∈ rs)
    (hp : r.properties = some props) (hf : props.firewallPolicy = some ref)
    (hid : ref.id = some pid) (_hfetched : ∃ p ∈ pols, p.id = pid) :
    r ∈ l ↔ ∃ p ∈ pols, p.id = pid ∧ policyHasMatchingRule d p := by
  obtain ⟨hall, _⟩ := process_ok_parts d pols rs l hok
  obtain ⟨lr, hlr⟩ := hall r hr
  unfold processResource at hlr
  simp only [hp, hf, hid] at hlr
  cases hc : policiesMatchCount d pid pols with
  | error e => rw [hc] at hlr; exact absurd hlr (by simp)
  | ok n =>
    rw [hc] at hlr
    injection hlr with hlr
    rw [mem_process_iff d pols rs l r hok]
    have hpos := policiesMatchCount_pos d pid pols n hc
    constructor
    · rintro ⟨r', hr', lr', hlr', hx⟩
      obtain ⟨n', hn'⟩ := processResource_ok_replicate d pols r' lr' hlr'
      subst hn'
      have hrr : r = r' := List.eq_of_mem_replicate hx
      subst hrr
      unfold processResource at hlr'
      simp only [hp, hf, hid, hc] at hlr'
      injection hlr' with hlr'
      have hlen : n = n' := by simpa using congrArg List.length hlr'
      have hne : n' ≠ 0 := (List.mem_replicate.mp hx).1
      exact hpos.mp (by omega)
    · intro hex
      have hn : 0 < n := hpos.mpr hex
      refine ⟨r, hr, List.replicate n r, ?_, ?_⟩
      · unfold processResource
        simp only [hp, hf, hid, hc]
      · exact List.mem_replicate.mpr ⟨by omega, rfl⟩

/-- Witness for C4 at the end-to-end fixture: B is in the result, and its
policy indeed has a matching rule. -/
theorem C4_match_iff_witness :
    resourceB ∈ ([resourceB] : List Resource) ↔
      ∃ p ∈ [policyB, policyC], p.id = "pb" ∧
        policyHasMatchingRule exampleData p :=
  C4_match_iff exampleData [policyB, policyC] [resourceA, resourceB, resourceC]
    [resourceB] resourceB ⟨some ⟨some "pb"⟩⟩ ⟨some "pb"⟩ "pb" rfl (by decide)
    rfl rfl rfl ⟨policyB, by decide, rfl⟩

/-- C7: a resource whose referenced policy id equals the id of no fetched
policy is excluded from the result of a successful run, whatever the
filter parameters. -/
theorem C7_unmatched_policy_excluded (d : WafFilterData) (pols : List WafPolicy)
    (rs l : List Resource) (r : Resource) (props : ResourceProperties)
    (ref : FirewallPolicyRef) (pid : String)
    (hok : process d pols rs = .ok l) (_hr : r ∈ rs)
    (hp : r.properties = some props) (hf : props.firewallPolicy = some ref)
    (hid : ref.id = some pid) (hnone : ∀ p ∈ pols, p.id ≠ pid) :
    r ∉ l := by
  intro hmem
  rw [mem_process_iff d pols rs l r hok] at hmem
  obtain ⟨r', hr', lr', hlr', hx⟩ := hmem
  obtain ⟨n', hn'⟩ := processResource_ok_replicate d pols r' lr' hlr'
  subst hn'
  have hrr : r = r' := List.eq_of_mem_replicate hx
  subst hrr
  unfold processResource at hlr'
  simp only [hp, hf, hid] at hlr'
  cases hc : policiesMatchCount d pid pols with
  | error e => rw [hc] at hlr'; exact absurd hlr' (by simp)
  | ok n =>
    rw [hc] at hlr'
    injection hlr' with hlr'
    have hne : n' ≠ 0 := (List.mem_replicate.mp hx).1
    have hlen : n = n' := by simpa using congrArg List.length hlr'
    obtain ⟨p, hpmem, hpid, _⟩ :=
      (policiesMatchCount_pos d pid pols n hc).mp (by omega)
    exact hnone p hpmem hpid

/-- Witness for C7: a resource referencing an unknown policy id is not in
the (empty) result. -/
theorem C7_unmatched_policy_excluded_witness :
    refResource "X" "nope" ∉ ([] : List Resource) :=
  C7_unmatched_policy_excluded exampleData [policyB] [refResource "X" "nope"] []
    (refResource "X" "nope") ⟨some ⟨some "nope"⟩⟩ ⟨some "nope"⟩ "nope" rfl
    (by decide) rfl rfl rfl (by decide)

lemma char_toNat_ofNat_valid (n : Nat) (h : n.isValidChar) :
    (Char.ofNat n).toNat = n := by
  simp only [Char.ofNat, dif_pos h]
  rfl

lemma char_toLower_toUpper (c : Char) :
    Char.toLower (Char.toUpper c) = Char.toLower c := by
  unfold Char.toUpper Char.toLower
  by_cases h : c.toNat ≥ 97 ∧ c.toNat ≤ 122
  · rw [if_pos h]
    have hv : (c.toNat - 32).isValidChar := by left; omega
    have ht : (Char.ofNat (c.toNat - 32)).toNat = c.toNat - 32 :=
      char_toNat_ofNat_valid _ hv
    rw [ht, if_pos (by omega), if_neg (by omega)]
    have h2 : c.toNat - 32 + 32 = c.toNat := by omega
    rw [h2, Char.ofNat_toNat]
  · rw [if_neg h]

lemma char_toLower_toLower (c : Char) :
    Char.toLower (Char.toLower c) = Char.toLower c := by
  unfold Char.toLower
  by_cases h : c.toNat ≥ 65 ∧ c.toNat ≤ 90
  · rw [if_pos h]
    have hv : (c.toNat + 32).isValidChar := by left; omega
    have ht : (Char.ofNat (c.toNat + 32)).toNat = c.toNat + 32 :=
      char_toNat_ofNat_valid _ hv
    rw [if_neg (by rw [ht]; omega)]
  · rw [if_neg h, if_neg h]

lemma toLower_of_caseVariantChar (c c2 : Char) (h : caseVariantChar c c2 = true) :
    c2.toLower = c.toLower := by
  unfold caseVariantChar at h
  rcases Bool.or_eq_true_iff.mp h with h2 | h2
  · rcases Bool.or_eq_true_iff.mp h2 with h3 | h3
    · rw [beq_iff_eq.mp h3]
    · rw [beq_iff_eq.mp h3]
      exact char_toLower_toLower c
  · rw [beq_iff_eq.mp h2]
    exact char_toLower_toUpper c

lemma mapToLower_of_caseVariantChars :
    ∀ l l2 : List Char, caseVariantChars l l2 = true →
      l2.map Char.toLower = l.map Char.toLower
  | [], [], _ => rfl
  | [], _ :: _, h => by simp [caseVariantChars] at h
  | _ :: _, [], h => by simp [caseVariantChars] at h
  | c :: cs, c2 :: cs2, h => by
    rw [caseVariantChars, Bool.and_eq_true] at h
    simp only [List.map_cons]
    rw [toLower_of_caseVariantChar c c2 h.1,
      mapToLower_of_caseVariantChars cs cs2 h.2]

lemma pyLower_of_caseVariant (s s2 : String) (h : caseVariant s s2 = true) :
    pyLower s2 = pyLower s := by
  unfold caseVariant at h
  unfold pyLower
  exact congrArg String.mk (mapToLower_of_caseVariantChars s.data s2.data h)

/-- C5: the state comparison the waf filter performs (line 92) is invariant
under changing the case of either operand, and in particular the rule
state Disabled matches the filter parameter disabled. -/
theorem C5_state_comparison_case_insensitive :
    (∀ fs rs fs2 rs2 : String, caseVariant fs fs2 = true →
      caseVariant rs rs2 = true → stateEq fs2 rs2 = stateEq fs rs) ∧
    stateEq "disabled" "Disabled" = true := by
  constructor
  · intro fs rs fs2 rs2 h1 h2
    unfold stateEq
    rw [pyLower_of_caseVariant fs fs2 h1, pyLower_of_caseVariant rs rs2 h2]
  · decide

/-- Witness for C5 at concrete case variants of disabled. -/
theorem C5_state_comparison_case_insensitive_witness :
    caseVariant "disabled" "DISABLED" = true ∧
    caseVariant "Disabled" "dIsAbLeD" = true ∧
    stateEq "DISABLED" "dIsAbLeD" = stateEq "disabled" "Disabled" :=
  ⟨by decide, by decide,
    C5_state_comparison_case_insensitive.1 "disabled" "Disabled" "DISABLED"
      "dIsAbLeD" (by decide) (by decide)⟩

/-- C6: the rule id comparison of line 91 is numeric, not string equality:
a rule whose ruleId field is the string 944240 satisfies the id side of
the condition against the number 944240, and in general, when the ruleId
string parses to the integer n, the condition evaluates to the
conjunction of the exact integer equality override_rule = n with the
state comparison. -/
theorem C6_rule_id_comparison_numeric :
    (∀ st t : String, stateEq st t = true →
      ruleCheck ⟨944240, st⟩ ⟨some "944240", some t⟩ = .ok true) ∧
    (∀ (d : WafFilterData) (s t : String) (n : Int), pyInt s = .ok n →
      ruleCheck d ⟨some s, some t⟩ =
        .ok (decide (d.override_rule = n) && stateEq d.state t)) := by
  constructor
  · intro st t h
    have hi : pyInt "944240" = .ok 944240 := rfl
    simp [ruleCheck, hi, h]
  · intro d s t n h
    by_cases hov : d.override_rule = n
    · simp [ruleCheck, h, hov]
    · simp [ruleCheck, h, hov]

/-- Witness for C6: the string 944240 matches the number 944240, and a
non-matching pair of integer values yields false. -/
theorem C6_rule_id_comparison_numeric_witness :
    ruleCheck ⟨944240, "disabled"⟩ ⟨some "944240", some "Disabled"⟩ = .ok true ∧
    ruleCheck ⟨7, "disabled"⟩ ⟨some "8", some "disabled"⟩ =
      .ok (decide ((7 : Int) = 8) && stateEq "disabled" "disabled") :=
  ⟨C6_rule_id_comparison_numeric.1 "disabled" "Disabled" (by decide),
    C6_rule_id_comparison_numeric.2 ⟨7, "disabled"⟩ "8" "disabled" 8 rfl⟩

/-- C8: one run of `process` invokes the policy-listing collaborator
`web_application_firewall_policies.list_all` exactly once — hence at most
once — whatever the resource list, and the resource loop runs on the
single fetched list. -/
theorem C8_list_all_called_once :
    ∀ (d : WafFilterData) (c : NetworkClient) (rs : List Resource),
      (processWithClient d c rs).2 = 1 ∧
      (processWithClient d c rs).1 =
        process d c.webApplicationFirewallPolicies rs :=
  fun _ _ _ => ⟨rfl, rfl⟩

/-! ## Lookup helpers for association lists with unique keys -/

lemma mem_of_lookup_eq_some {β : Type} :
    ∀ (l : List (String × β)) (k : String) (v : β),
      l.lookup k = some v → (k, v) ∈ l
  | [], _, _, h => by simp [List.lookup] at h
  | (k', v') :: l, k, v, h => by
    rw [List.lookup] at h
    cases hk : k == k' with
    | true =>
      rw [hk] at h
      injection h with h
      cases beq_iff_eq.mp hk
      cases h
      exact List.mem_cons_self _ _
    | false =>
      rw [hk] at h
      exact List.mem_cons_of_mem _ (mem_of_lookup_eq_some l k v h)

lemma lookup_eq_some_of_mem_nodup {β : Type} :
    ∀ (l : List (String × β)) (k : String) (v : β),
      (l.map Prod.fst).Nodup → (k, v) ∈ l → l.lookup k = some v
  | [], _, _, _, h => absurd h (List.not_mem_nil _)
  | (k', v') :: l, k, v, hnd, h => by
    rw [List.map_cons, List.nodup_cons] at hnd
    rcases List.mem_cons.mp h with heq | hmem
    · injection heq with h1 h2
      subst h1
      subst h2
      simp [List.lookup]
    · have hk : ¬(k = k') := by
        intro hkk
        subst hkk
        exact hnd.1 (List.mem_map.mpr ⟨(k, v), hmem, rfl⟩)
      rw [List.lookup, beq_eq_false_iff_ne.mpr hk]
      exact lookup_eq_some_of_mem_nodup l k v hnd.2 hmem

/-- C9: the declared waf schema accepts a filter record (with unique keys,
as in a Python dict) exactly when it has an override_rule key holding a
number and a state key holding the string disabled; and the runner
rejects every other record at validation time, before any resource
enumeration occurs (zero enumeration calls). -/
theorem C9_schema_accepts_iff (spec : FilterSpec)
    (hnd : (spec.map Prod.fst).Nodup) :
    (validateSpec wafSchema spec = true ↔
      ((∃ n : Int, spec.lookup "override_rule" = some (.num n)) ∧
        spec.lookup "state" = some (.str "disabled"))) ∧
    (validateSpec wafSchema spec = false →
      ∀ (e : Enumerator) (c : NetworkClient),
        runWaf spec e c = (.error .validationError, 0)) := by
  have e1 : wafSchema.props.lookup "override_rule" = some PropConstraint.jsonNumber := rfl
  have e2 : wafSchema.props.lookup "state" = some (PropConstraint.strEnum ["disabled"]) := rfl
  constructor
  · constructor
    · intro h
      unfold validateSpec at h
      rw [Bool.and_eq_true] at h
      obtain ⟨hreq, hprops⟩ := h
      simp only [wafSchema, List.all_cons, List.all_nil, Bool.and_eq_true,
        Bool.and_true] at hreq
      obtain ⟨hor, hst⟩ := hreq
      obtain ⟨vor, hvor⟩ := Option.isSome_iff_exists.mp hor
      obtain ⟨vst, hvst⟩ := Option.isSome_iff_exists.mp hst
      have h1 := List.all_eq_true.mp hprops _ (mem_of_lookup_eq_some spec _ _ hvor)
      have h2 := List.all_eq_true.mp hprops _ (mem_of_lookup_eq_some spec _ _ hvst)
      simp only [e1] at h1
      simp only [e2] at h2
      constructor
      · cases vor with
        | num n => exact ⟨n, hvor⟩
        | str s => simp [checkConstraint] at h1
        | boolean b => simp [checkConstraint] at h1
        | null => simp [checkConstraint] at h1
      · cases vst with
        | num n => simp [checkConstraint] at h2
        | str s =>
          have : s = "disabled" := by
            simpa [checkConstraint] using h2
          rw [← this]
          exact hvst
        | boolean b => simp [checkConstraint] at h2
        | null => simp [checkConstraint] at h2
    · rintro ⟨⟨n, hor⟩, hst⟩
      unfold validateSpec
      rw [Bool.and_eq_true]
      constructor
      · simp only [wafSchema, List.all_cons, List.all_nil, Bool.and_true]
        rw [hor, hst]
        rfl
      · rw [List.all_eq_true]
        rintro ⟨k, v⟩ hkv
        by_cases h1 : k = "override_rule"
        · subst h1
          have hv := lookup_eq_some_of_mem_nodup spec _ _ hnd hkv
          rw [hor] at hv
          injection hv with hv
          simp only [e1, ← hv, checkConstraint]
        · by_cases h2 : k = "state"
          · subst h2
            have hv := lookup_eq_some_of_mem_nodup spec _ _ hnd hkv
            rw [hst] at hv
            injection hv with hv
            simp only [e2, ← hv, checkConstraint]
            rfl
          · have e3 : wafSchema.props.lookup k = none := by
              show List.lookup k [("override_rule", PropConstraint.jsonNumber),
                ("state", PropConstraint.strEnum ["disabled"])] = none
              rw [List.lookup, beq_eq_false_iff_ne.mpr h1,
                List.lookup, beq_eq_false_iff_ne.mpr h2,
                List.lookup]
            simp only [e3]
  · intro hfail e c
    unfold runWaf
    rw [hfail]
    rfl

/-- Witness for C9: the example record is accepted and characterized; the
bad record is rejected with zero enumeration calls. -/
theorem C9_schema_accepts_iff_witness :
    (validateSpec wafSchema specGood = true ↔
      ((∃ n : Int, specGood.lookup "override_rule" = some (.num n)) ∧
        specGood.lookup "state" = some (.str "disabled"))) ∧
    runWaf specBad ⟨[]⟩ ⟨[]⟩ = (.error .validationError, 0) :=
  ⟨(C9_schema_accepts_iff specGood (by decide)).1,
    (C9_schema_accepts_iff specBad (by decide)).2 (by decide) ⟨[]⟩ ⟨[]⟩⟩

/-! ## Lemmas: which exceptions each layer can raise

`KeyError` only arises from the two subscript accesses on the resource
itself (lines 78-82); nothing below `processResource` raises one. -/

lemma pyInt_error_eq (s : String) (e : PyErr) (h : pyInt s = .error e) :
    e = .valueError := by
  unfold pyInt at h
  split at h
  · injection h with h
    exact h.symm
  · split at h
    · exact absurd h (by simp)
    · injection h with h
      exact h.symm
  · split at h
    · exact absurd h (by simp)
    · injection h with h
      exact h.symm
  · split at h
    · exact absurd h (by simp)
    · injection h with h
      exact h.symm

lemma ruleCheck_no_keyError (d : WafFilterData) (rule : WafRule) (k : String)
    (h : ruleCheck d rule = .error (.keyError k)) : False := by
  obtain ⟨rid?, st?⟩ := rule
  cases rid? with
  | none => simp [ruleCheck] at h
  | some s =>
    cases hint : pyInt s with
    | error e2 =>
      have he2 := pyInt_error_eq s e2 hint
      subst he2
      simp [ruleCheck, hint] at h
    | ok rid =>
      by_cases hov : d.override_rule = rid
      · cases st? with
        | none => simp [ruleCheck, hint, hov] at h
        | some t => simp [ruleCheck, hint, hov] at h
      · simp [ruleCheck, hint, hov] at h

lemma rulesMatchCount_no_keyError (d : WafFilterData) :
    ∀ (rs : List WafRule) (k : String),
      rulesMatchCount d rs = .error (.keyError k) → False := by
  intro rs
  induction rs with
  | nil => intro k h; exact absurd h (by simp [rulesMatchCount])
  | cons r rs ih =>
    intro k h
    unfold rulesMatchCount at h
    cases hc : ruleCheck d r with
    | error e =>
      rw [hc] at h
      injection h with h
      exact ruleCheck_no_keyError d r k (h ▸ hc)
    | ok b =>
      rw [hc] at h
      cases hrec : rulesMatchCount d rs with
      | error e =>
        rw [hrec] at h
        injection h with h
        exact ih k (h ▸ hrec)
      | ok m => rw [hrec] at h; exact absurd h (by simp)

lemma groupMatchCount_no_keyError (d : WafFilterData) (g : RuleGroupOverride)
    (k : String) (h : groupMatchCount d g = .error (.keyError k)) : False := by
  unfold groupMatchCount at h
  cases hg : g.rules with
  | none => simp [hg] at h
  | some rs =>
    rw [hg] at h
    exact rulesMatchCount_no_keyError d rs k h

lemma groupsMatchCount_no_keyError (d : WafFilterData) :
    ∀ (gs : List RuleGroupOverride) (k : String),
      groupsMatchCount d gs = .error (.keyError k) → False := by
  intro gs
  induction gs with
  | nil => intro k h; exact absurd h (by simp [groupsMatchCount])
  | cons g gs ih =>
    intro k h
    unfold groupsMatchCount at h
    cases hc : groupMatchCount d g with
    | error e =>
      rw [hc] at h
      injection h with h
      exact groupMatchCount_no_keyError d g k (h ▸ hc)
    | ok a =>
      rw [hc] at h
      cases hrec : groupsMatchCount d gs with
      | error e =>
        rw [hrec] at h
        injection h with h
        exact ih k (h ▸ hrec)
      | ok m => rw [hrec] at h; exact absurd h (by simp)

lemma ruleSetMatchCount_no_keyError (d : WafFilterData) (s : ManagedRuleSet)
    (k : String) (h : ruleSetMatchCount d s = .error (.keyError k)) : False := by
  unfold ruleSetMatchCount at h
  cases hs : s.ruleGroupOverrides with
  | none => simp [hs] at h
  | some gs =>
    rw [hs] at h
    exact groupsMatchCount_no_keyError d gs k h

lemma ruleSetsMatchCount_no_keyError (d : WafFilterData) :
    ∀ (ss : List ManagedRuleSet) (k : String),
      ruleSetsMatchCount d ss = .error (.keyError k) → False := by
  intro ss
  induction ss with
  | nil => intro k h; exact absurd h (by simp [ruleSetsMatchCount])
  | cons s ss ih =>
    intro k h
    unfold ruleSetsMatchCount at h
    cases hc : ruleSetMatchCount d s with
    | error e =>
      rw [hc] at h
      injection h with h
      exact ruleSetMatchCount_no_keyError d s k (h ▸ hc)
    | ok a =>
      rw [hc] at h
      cases hrec : ruleSetsMatchCount d ss with
      | error e =>
        rw [hrec] at h
        injection h with h
        exact ih k (h ▸ hrec)
      | ok m => rw [hrec] at h; exact absurd h (by simp)

lemma policyMatchCount_no_keyError (d : WafFilterData) (p : WafPolicy)
    (k : String) (h : policyMatchCount d p = .error (.keyError k)) : False := by
  unfold policyMatchCount at h
  cases hmr : (p.serializedProperties.getD ⟨none⟩).managedRules with
  | none => simp [hmr] at h
  | some mr =>
    simp only [hmr] at h
    cases hsets : mr.managedRuleSets with
    | none => simp [hsets] at h
    | some sets =>
      simp only [hsets] at h
      exact ruleSetsMatchCount_no_keyError d sets k h

lemma policiesMatchCount_no_keyError (d : WafFilterData) (pid : String) :
    ∀ (ps : List WafPolicy) (k : String),
      policiesMatchCount d pid ps = .error (.keyError k) → False := by
  intro ps
  induction ps with
  | nil => intro k h; exact absurd h (by simp [policiesMatchCount])
  | cons p ps ih =>
    intro k h
    unfold policiesMatchCount at h
    by_cases hpd : p.id = pid
    · rw [if_neg (not_not.mpr hpd)] at h
      cases hc : policyMatchCount d p with
      | error e =>
        rw [hc] at h
        injection h with h
        exact policyMatchCount_no_keyError d p k (h ▸ hc)
      | ok a =>
        rw [hc] at h
        cases hrec : policiesMatchCount d pid ps with
        | error e =>
          rw [hrec] at h
          injection h with h
          exact ih k (h ▸ hrec)
        | ok m => rw [hrec] at h; exact absurd h (by simp)
    · rw [if_pos hpd] at h
      exact ih k h

lemma processResource_no_properties_keyError (d : WafFilterData)
    (pols : List WafPolicy) (r : Resource) (hr : r.properties.isSome)
    (h : processResource d pols r = .error (.keyError "properties")) :
    False := by
  obtain ⟨props, hp⟩ := Option.isSome_iff_exists.mp hr
  unfold processResource at h
  simp only [hp] at h
  cases hf : props.firewallPolicy with
  | none => simp [hf] at h
  | some ref =>
    simp only [hf] at h
    cases hid : ref.id with
    | none =>
      simp only [hid] at h
      injection h with h
      injection h with h
      exact absurd h (by decide)
    | some pid =>
      simp only [hid] at h
      cases hc : policiesMatchCount d pid pols with
      | error e =>
        rw [hc] at h
        injection h with h
        exact policiesMatchCount_no_keyError d pid pols "properties" (h ▸ hc)
      | ok n => rw [hc] at h; exact absurd h (by simp)

/-- C10: `process` looks up the properties key unconditionally on every
input resource; when every input resource has that key the lookup never
fails (the run never ends in the properties `KeyError`); a resource whose
properties merely lack firewallPolicy is skipped without error or effect
on the result; a resource lacking properties itself is outside the
guarantee — there the lookup raises `KeyError`. -/
theorem C10_properties_lookup (d : WafFilterData) (pols : List WafPolicy) :
    (∀ rs : List Resource, (∀ r ∈ rs, r.properties.isSome) →
      process d pols rs ≠ .error (.keyError "properties")) ∧
    (∀ (r : Resource) (props : ResourceProperties) (rest : List Resource),
      r.properties = some props → props.firewallPolicy = none →
      process d pols (r :: rest) = process d pols rest) ∧
    (∀ (name : String) (rest : List Resource),
      process d pols (⟨name, none⟩ :: rest) = .error (.keyError "properties")) := by
  refine ⟨?_, ?_, ?_⟩
  · intro rs
    induction rs with
    | nil => intro _ h; exact absurd h (by simp [process])
    | cons r rest ih =>
      intro hall h
      unfold process at h
      cases hr : processResource d pols r with
      | error e =>
        rw [hr] at h
        injection h with h
        exact processResource_no_properties_keyError d pols r
          (hall r (List.mem_cons_self r rest)) (h ▸ hr)
      | ok l1 =>
        rw [hr] at h
        cases hrec : process d pols rest with
        | error e =>
          rw [hrec] at h
          injection h with h
          exact ih (fun x hx => hall x (List.mem_cons_of_mem r hx)) (h ▸ hrec)
        | ok l2 => rw [hrec] at h; exact absurd h (by simp)
  · intro r props rest hp hf
    have hpr : processResource d pols r = .ok [] := by
      unfold processResource
      simp [hp, hf]
    simp only [process, hpr]
    cases hrec : process d pols rest with
    | error e => rfl
    | ok l2 => rfl
  · intro name rest
    rfl

/-- Witness for C10 at concrete resources with and without the properties
key. -/
theorem C10_properties_lookup_witness :
    process exampleData [policyB] [resourceA, resourceB] ≠
      .error (.keyError "properties") ∧
    process exampleData [policyB] [resourceA, resourceB] =
      process exampleData [policyB] [resourceB] ∧
    process exampleData [policyB] [(⟨"X", none⟩ : Resource)] =
      .error (.keyError "properties") :=
  ⟨(C10_properties_lookup exampleData [policyB]).1 [resourceA, resourceB]
      (by decide),
    (C10_properties_lookup exampleData [policyB]).2.1 resourceA ⟨none⟩
      [resourceB] rfl rfl,
    (C10_properties_lookup exampleData [policyB]).2.2 "X" []⟩

end AppGatewayWaf
